import Mathlib

/-!
# gobench: the request executor, the dispatch loops and the latency reduction

A shallow embedding of `src/main.go`.

* `time.Duration` is an `int64` count of nanoseconds and `int` is taken to be 64 bits
  wide: both are `Int` here, and the arithmetic of the source that can leave the
  `int64` range is followed by `wrap64`.
* A Go runtime panic is a value of `Panic`; code that can panic returns
  `Except Panic _`.  An unrecovered panic in any goroutine ends the process.
* The network, the JSON encoder and the clock are outside the program: what
  they return to one call of `sendRequest` is an `Attempt`.
* The goroutines of `runTest` are interleaved by a schedule, a list of
  `Event`s; `step` says what one event does to the state of `runTest` and
  `run` follows a schedule.
* `fmt.Println` output, the `float64` fields `Duration` and `RPS` of
  `TestResult`, and the fields `Body` and `Headers` of `TestConfig` carry no
  control flow of their own and are left out.  The append to the shared slice
  is taken as one atomic step.
-/

namespace Gobench

/-! ## Data model -/

/-- Go runtime panics that the code of `main.go` can raise. -/
inductive Panic where
  /-- Field access through a nil pointer (`resp.StatusCode` with `resp == nil`). -/
  | nilDereference
  /-- The message is `integer divide by zero`. -/
  | divideByZero
  /-- The call `make(chan T, n)` with a negative `n`. -/
  | makechanSize
  /-- The call `time.NewTicker(d)` with `d <= 0`. -/
  | tickerInterval
  deriving DecidableEq, Repr

/-- Two's complement reduction of an integer to the `int64` range. -/
def wrap64 (x : Int) : Int :=
  (x + 9223372036854775808) % 18446744073709551616 - 9223372036854775808

/-- The value is representable as an `int64`. -/
def InInt64 (x : Int) : Prop :=
  -9223372036854775808 ≤ x ∧ x ≤ 9223372036854775807

instance (x : Int) : Decidable (InInt64 x) := by
  unfold InInt64; infer_instance

/-- Struct `TestConfig` (lines 14-23); `Body` and `Headers` are left out. -/
structure TestConfig where
  Name : String
  URI : String
  Requests : Int
  Duration : Int
  Method : String
  Concurrency : Int
  deriving DecidableEq, Repr

/-- Struct `TestResult` (lines 25-34); the `float64` fields `Duration` and
`RPS` are left out. -/
structure TestResult where
  Name : String
  Method : String
  Requests : Int
  AvgLatency : Int
  MaxLatency : Int
  MinLatency : Int
  deriving DecidableEq, Repr

/-- The part of `*http.Response` that `sendRequest` reads. -/
structure Response where
  StatusCode : Int
  deriving DecidableEq, Repr

/-- What the outside world returns to one call of `sendRequest`.  The fields are
independent; `net/http` itself returns a nil response exactly with the errors other
than a refused redirect. -/
structure Attempt where
  /-- The call `json.Marshal(test.Body)` returns a non-nil error (line 46). -/
  marshalErr : Bool
  /-- The call `http.NewRequest` returns a non-nil error (line 56). -/
  newRequestErr : Bool
  /-- The pointer `resp` returned by `client.Do`; `none` is the nil pointer. -/
  resp : Option Response
  /-- The error returned by `client.Do` is non-nil (line 75). -/
  doErr : Bool
  /-- The value of `time.Since(start)` (line 77). -/
  elapsed : Int
  deriving DecidableEq, Repr

/-- A transport-level error of `client.Do`: a non-nil error and no response. -/
def Attempt.TransportError (a : Attempt) : Prop :=
  a.doErr = true ∧ a.resp = none

instance (a : Attempt) : Decidable a.TransportError := by
  unfold Attempt.TransportError; infer_instance

/-! ## Request executor -/

/-- Function `sendRequest` (lines 36-88) as a function of the latency slice.
The result is the slice after the call, or the panic the call raises. -/
def sendRequest (test : TestConfig) (a : Attempt) (latencies : List Int) :
    Except Panic (List Int) :=
  if (test.Method = "POST" ∨ test.Method = "PUT") ∧ a.marshalErr = true then
    -- lines 50-53: serialisation error, return
    .ok latencies
  else if a.newRequestErr = true then
    -- lines 58-61: request construction error, return
    .ok latencies
  else
    -- lines 79-83
    let latencies1 := if a.doErr = true then latencies else latencies ++ [a.elapsed]
    -- line 85: `resp.StatusCode` is read whatever `err` was
    match a.resp with
    | none => .error .nilDereference
    | some _ => .ok latencies1

/-! ## Latency reduction -/

/-- The three accumulators of lines 140-142. -/
structure Acc where
  totalLatency : Int
  maxLatency : Int
  minLatency : Int
  deriving DecidableEq, Repr

/-- Body of the loop of lines 144-152 for one sample. -/
def reduceStep (acc : Acc) (latency : Int) : Acc :=
  { totalLatency := wrap64 (acc.totalLatency + latency)
    maxLatency := if latency > acc.maxLatency then latency else acc.maxLatency
    minLatency :=
      if acc.minLatency = 0 ∨ latency < acc.minLatency then latency else acc.minLatency }

/-- The loop of lines 144-152 over the whole slice, from the zero accumulators. -/
def reduceLoop (latencies : List Int) : Acc :=
  latencies.foldl reduceStep ⟨0, 0, 0⟩

/-- Go division of two `int64` values: panics on a zero divisor, truncates
toward zero otherwise. -/
def goDiv (a b : Int) : Except Panic Int :=
  if b = 0 then .error .divideByZero else .ok (wrap64 (Int.tdiv a b))

/-- Lines 140-166 of `runTest`: the reduction of the collected samples to the
`TestResult` that is sent on `results`. -/
def summarize (test : TestConfig) (latencies : List Int) : Except Panic TestResult :=
  let acc := reduceLoop latencies
  match goDiv acc.totalLatency (latencies.length : Int) with
  | .error p => .error p
  | .ok avgLatency =>
    .ok { Name := test.Name
          Method := test.Method
          Requests := (latencies.length : Int)
          AvgLatency := avgLatency
          MaxLatency := acc.maxLatency
          MinLatency := acc.minLatency }

/-! ## The goroutines of one `runTest` call -/

/-- Where the goroutine that executes `runTest` stands. -/
inductive PC where
  /-- At the `select` of the duration-mode loop (line 111). -/
  | durLoop
  /-- At the loop test of the count-mode loop (line 123). -/
  | countLoop
  /-- Past the send of line 125, before lines 127-129. -/
  | holding
  /-- At `wgRequests.Wait()` (line 136). -/
  | waiting
  /-- Past the send on `results` (line 157). -/
  | finished
  deriving DecidableEq, Repr

/-- The goroutine of lines 105-108. -/
inductive Timer where
  /-- Count mode: the goroutine does not exist. -/
  | absent
  /-- Blocked in `<-ticker.C` (line 106). -/
  | armed
  /-- Blocked in `done <- true` (line 107): the timer has fired. -/
  | sending
  /-- The value was received from `done`; the goroutine has ended. -/
  | spent
  deriving DecidableEq, Repr

/-- State of one `runTest` call and of the goroutines it started. -/
structure RunState where
  pc : PC
  /-- Loop variable of line 123. -/
  i : Int
  timer : Timer
  /-- Number of values buffered in `concurrencyChan`. -/
  chanLen : Nat
  /-- Goroutines started by a `go` statement that have not yet called `sendRequest`. -/
  created : Nat
  /-- Calls of `sendRequest` that have begun and not ended: the attempts in flight. -/
  running : Nat
  /-- Count-mode goroutines past `sendRequest`, before the receive of line 131. -/
  returned : Nat
  /-- Counter of the wait group `wgRequests`. -/
  wgRequests : Nat
  /-- Number of `go` statements executed so far (lines 116 and 129). -/
  launched : Nat
  /-- The slice `latencies`. -/
  latencies : List Int
  /-- The value sent on `results`, once sent. -/
  result : Option TestResult
  /-- The panic that ended the process, if any. -/
  crashed : Option Panic
  deriving DecidableEq, Repr

/-- One scheduling step of the goroutines of `runTest`. -/
inductive Event where
  /-- Duration mode: the ticker fires and the goroutine of line 105 reaches line 107. -/
  | tick
  /-- Duration mode: one execution of the `select` statement (lines 111-117). -/
  | selectIter
  /-- Count mode: the loop test holds and the send of line 125 puts a value in the buffer. -/
  | acquire
  /-- Count mode: the loop test holds and the send of line 125 is taken directly by a
  goroutine blocked in the receive of line 131. -/
  | handoff
  /-- Count mode: lines 127-129 and the increment of the loop variable. -/
  | spawn
  /-- Count mode: the loop test fails (line 123). -/
  | exitLoop
  /-- A started goroutine calls `sendRequest`. -/
  | enter
  /-- A call of `sendRequest` runs to its end; the argument is what the outside world
  returned to it. -/
  | finish (a : Attempt)
  /-- Count mode: a goroutine past `sendRequest` receives from `concurrencyChan` (line 131). -/
  | release
  /-- The call `wgRequests.Wait()` returns and lines 138-166 run. -/
  | report
  deriving DecidableEq, Repr

/-- State of `runTest` once the ticker of line 101 and the channel of line 103, or the
channel of line 121, are made.  The product of line 101 is an `int64` product, and
`time.NewTicker` panics on an interval that is not positive; `make` panics on a
negative capacity. -/
def start (test : TestConfig) : RunState :=
  { pc := if test.Duration > 0 then .durLoop else .countLoop
    i := 0
    timer := if test.Duration > 0 then .armed else .absent
    chanLen := 0
    created := 0
    running := 0
    returned := 0
    wgRequests := 0
    launched := 0
    latencies := []
    result := none
    crashed :=
      if test.Duration > 0 then
        if wrap64 (test.Duration * 1000000000) ≤ 0 then some .tickerInterval else none
      else if test.Concurrency < 0 then some .makechanSize else none }

/-- Effect of one event on the state of `runTest`; `none` when the event cannot
happen in that state (the goroutine is not there, or it is blocked).  After a
panic the process is gone and nothing can happen. -/
def step (test : TestConfig) (s : RunState) (e : Event) : Option RunState :=
  if s.crashed.isSome then none else
  match e with
  | .tick =>
    if s.timer = .armed then some { s with timer := .sending } else none
  | .selectIter =>
    if s.pc = .durLoop then
      if s.timer = .sending then
        -- `case <-done: break`: the `break` ends the `select` statement, and the
        -- enclosing `for` goes to its next iteration
        some { s with timer := .spent }
      else
        -- `default:` lines 115-116
        some { s with wgRequests := s.wgRequests + 1
                      created := s.created + 1
                      launched := s.launched + 1 }
    else none
  | .acquire =>
    if s.pc = .countLoop ∧ s.i < test.Requests ∧ (s.chanLen : Int) < test.Concurrency then
      some { s with pc := .holding, chanLen := s.chanLen + 1 }
    else none
  | .handoff =>
    if s.pc = .countLoop ∧ s.i < test.Requests ∧ s.chanLen = 0 ∧ 0 < s.returned then
      some { s with pc := .holding, returned := s.returned - 1 }
    else none
  | .spawn =>
    if s.pc = .holding then
      some { s with pc := .countLoop
                    i := s.i + 1
                    wgRequests := s.wgRequests + 1
                    created := s.created + 1
                    launched := s.launched + 1 }
    else none
  | .exitLoop =>
    if s.pc = .countLoop ∧ ¬ s.i < test.Requests then some { s with pc := .waiting } else none
  | .enter =>
    if 0 < s.created then
      some { s with created := s.created - 1, running := s.running + 1 }
    else none
  | .finish a =>
    if 0 < s.running then
      match sendRequest test a s.latencies with
      | .error p => some { s with crashed := some p }
      | .ok l =>
        if test.Duration > 0 then
          -- line 116: the goroutine is the call itself
          some { s with running := s.running - 1
                        wgRequests := s.wgRequests - 1
                        latencies := l }
        else
          -- line 130 returned, line 131 is next
          some { s with running := s.running - 1
                        returned := s.returned + 1
                        wgRequests := s.wgRequests - 1
                        latencies := l }
    else none
  | .release =>
    if 0 < s.returned ∧ 0 < s.chanLen then
      some { s with returned := s.returned - 1, chanLen := s.chanLen - 1 }
    else none
  | .report =>
    if s.pc = .waiting ∧ s.wgRequests = 0 then
      match summarize test s.latencies with
      | .error p => some { s with crashed := some p }
      | .ok r => some { s with pc := .finished, result := some r }
    else none

/-- State reached from `s` along a schedule; `none` when some event of the
schedule cannot happen. -/
def run (test : TestConfig) (s : RunState) : List Event → Option RunState
  | [] => some s
  | e :: es =>
    match step test s e with
    | none => none
    | some s1 => run test s1 es

/-- The goroutine of `runTest` stands at the send of line 125 with a request still
to launch, the process is alive, and no goroutine of this `runTest` can take any step:
the send never completes.  (The Go runtime ends a process all of whose goroutines are
blocked; that is no step of `runTest`.) -/
def BlockedOnSlot (test : TestConfig) (s : RunState) : Prop :=
  s.pc = .countLoop ∧ s.crashed = none ∧ s.i < test.Requests ∧ ∀ e, step test s e = none

/-- Invariant of the count-mode dispatch: every goroutine that was started and has not
yet received from `concurrencyChan`, and the slot taken at line 125 for the goroutine
about to be started, is matched by one value in the channel buffer, and the buffer
holds at most `Concurrency` values. -/
def CountInv (test : TestConfig) (s : RunState) : Prop :=
  s.created + s.running + s.returned + (if s.pc = .holding then 1 else 0) = s.chanLen ∧
  (s.chanLen : Int) ≤ test.Concurrency ∧ s.pc ≠ .durLoop

/-- Invariant of the count-mode loop counter: the loop variable counts the `go`
statements executed, and the loop is left only when the loop test fails. -/
def LoopInv (test : TestConfig) (s : RunState) : Prop :=
  (s.launched : Int) = s.i ∧ s.pc ≠ .durLoop ∧
  (s.pc = .holding → s.i < test.Requests) ∧
  (s.i ≤ test.Requests ∨ s.i = 0) ∧
  ((s.pc = .waiting ∨ s.pc = .finished) → ¬ s.i < test.Requests)

/-- Invariant of the duration-mode loop: control never leaves the loop. -/
def DurInv (s : RunState) : Prop :=
  s.pc = .durLoop ∧ s.result = none

/-- The call of `sendRequest` comes back to its caller: it takes one of the two early
returns, or `client.Do` gave it a response. -/
def Attempt.Returns (test : TestConfig) (a : Attempt) : Prop :=
  ((test.Method = "POST" ∨ test.Method = "PUT") ∧ a.marshalErr = true) ∨
  a.newRequestErr = true ∨ a.resp ≠ none

instance (test : TestConfig) (a : Attempt) : Decidable (a.Returns test) := by
  unfold Attempt.Returns; infer_instance

/-- The call of `sendRequest` is answered by a transport-level error of `client.Do`. -/
def Attempt.Refused (test : TestConfig) (a : Attempt) : Prop :=
  ¬ ((test.Method = "POST" ∨ test.Method = "PUT") ∧ a.marshalErr = true) ∧
  a.newRequestErr = false ∧ a.TransportError

instance (test : TestConfig) (a : Attempt) : Decidable (a.Refused test) := by
  unfold Attempt.Refused; infer_instance

/-- Every `sendRequest` call that ends in the schedule ends on a transport-level error. -/
def AllRefused (test : TestConfig) (evs : List Event) : Prop :=
  ∀ e ∈ evs, ∀ a, e = .finish a → a.Refused test

/-- The count-mode loop stands at its head, the process is alive and no goroutine of an
earlier iteration is left. -/
def Idle (s : RunState) : Prop :=
  s.crashed = none ∧ s.pc = .countLoop ∧ s.chanLen = 0 ∧ s.created = 0 ∧ s.running = 0 ∧
  s.returned = 0

/-- The schedule that lets each attempt run to its end before the next one is
launched, and then leaves the loop. -/
def sequentialSchedule : List Attempt → List Event
  | [] => [.exitLoop]
  | a :: rest =>
    .acquire :: .spawn :: .enter :: .finish a :: .release :: sequentialSchedule rest

/-! ## Concrete inputs -/

/-- A count-mode `GET` test with `n` requests and concurrency `c`. -/
def countTest (n c : Int) : TestConfig :=
  { Name := "t1", URI := "http://localhost:8080/", Requests := n, Duration := 0,
    Method := "GET", Concurrency := c }

/-- A duration-mode `GET` test of `d` seconds. -/
def durationTest (d : Int) : TestConfig :=
  { Name := "t2", URI := "http://localhost:8080/", Requests := 0, Duration := d,
    Method := "GET", Concurrency := 1 }

/-- An attempt answered with status 200 after `e` nanoseconds. -/
def okAttempt (e : Int) : Attempt :=
  { marshalErr := false, newRequestErr := false, resp := some ⟨200⟩, doErr := false,
    elapsed := e }

/-- An attempt whose connection is refused after `e` nanoseconds: `client.Do` returns a
nil response and a non-nil error. -/
def refusedAttempt (e : Int) : Attempt :=
  { marshalErr := false, newRequestErr := false, resp := none, doErr := true,
    elapsed := e }

/-! ## Lemmas on the latency reduction -/

theorem wrap64_of_inInt64 {x : Int} (h : InInt64 x) : wrap64 x = x := by
  unfold InInt64 at h
  unfold wrap64
  omega

theorem inInt64_wrap64 (x : Int) : InInt64 (wrap64 x) := by
  unfold InInt64 wrap64
  omega

theorem wrap64_add_wrap64 (a b : Int) : wrap64 (wrap64 a + b) = wrap64 (a + b) := by
  unfold wrap64
  omega

theorem foldl_total (l : List Int) (acc : Acc) (h : InInt64 acc.totalLatency) :
    (l.foldl reduceStep acc).totalLatency = wrap64 (acc.totalLatency + l.sum) := by
  induction l generalizing acc with
  | nil => simp [wrap64_of_inInt64 h]
  | cons x xs ih =>
    have hx : InInt64 (reduceStep acc x).totalLatency := inInt64_wrap64 _
    rw [List.foldl_cons, ih _ hx]
    show wrap64 (wrap64 (acc.totalLatency + x) + xs.sum) = _
    rw [wrap64_add_wrap64, List.sum_cons, Int.add_assoc]

theorem reduceLoop_total (l : List Int) : (reduceLoop l).totalLatency = wrap64 l.sum := by
  unfold reduceLoop
  rw [foldl_total l ⟨0, 0, 0⟩ (by unfold InInt64; simp)]
  simp

theorem foldl_max (l : List Int) (acc : Acc) :
    acc.maxLatency ≤ (l.foldl reduceStep acc).maxLatency ∧
    (∀ x ∈ l, x ≤ (l.foldl reduceStep acc).maxLatency) ∧
    ((l.foldl reduceStep acc).maxLatency = acc.maxLatency ∨
      (l.foldl reduceStep acc).maxLatency ∈ l) := by
  induction l generalizing acc with
  | nil => simp
  | cons x xs ih =>
    rw [List.foldl_cons]
    obtain ⟨h1, h2, h3⟩ := ih (reduceStep acc x)
    have hm : (reduceStep acc x).maxLatency =
        if x > acc.maxLatency then x else acc.maxLatency := rfl
    refine ⟨?_, ?_, ?_⟩
    · rw [hm] at h1
      split at h1 <;> omega
    · intro y hy
      rcases List.mem_cons.mp hy with rfl | hy
      · rw [hm] at h1
        split at h1 <;> omega
      · exact h2 y hy
    · rcases h3 with h3 | h3
      · rw [hm] at h3
        split at h3
        · right; rw [h3]; exact List.mem_cons_self _ _
        · left; exact h3
      · right; exact List.mem_cons_of_mem _ h3

/-- From a positive running minimum and over positive samples, the loop computes
the least of that minimum and the samples. -/
theorem foldl_min_pos (l : List Int) (acc : Acc) (hacc : 0 < acc.minLatency)
    (hl : ∀ x ∈ l, 0 < x) :
    (l.foldl reduceStep acc).minLatency ≤ acc.minLatency ∧
    (∀ x ∈ l, (l.foldl reduceStep acc).minLatency ≤ x) ∧
    ((l.foldl reduceStep acc).minLatency = acc.minLatency ∨
      (l.foldl reduceStep acc).minLatency ∈ l) := by
  induction l generalizing acc with
  | nil => simp
  | cons x xs ih =>
    rw [List.foldl_cons]
    have hm : (reduceStep acc x).minLatency =
        if acc.minLatency = 0 ∨ x < acc.minLatency then x else acc.minLatency := rfl
    have hx : 0 < x := hl x (List.mem_cons_self _ _)
    have hpos : 0 < (reduceStep acc x).minLatency := by
      rw [hm]; split <;> omega
    obtain ⟨h1, h2, h3⟩ :=
      ih (reduceStep acc x) hpos (fun y hy => hl y (List.mem_cons_of_mem _ hy))
    refine ⟨?_, ?_, ?_⟩
    · rw [hm] at h1
      split at h1 <;> omega
    · intro y hy
      rcases List.mem_cons.mp hy with rfl | hy
      · rw [hm] at h1
        split at h1 <;> omega
      · exact h2 y hy
    · rcases h3 with h3 | h3
      · rw [hm] at h3
        split at h3
        · right; rw [h3]; exact List.mem_cons_self _ _
        · left; exact h3
      · right; exact List.mem_cons_of_mem _ h3

/-- Over positive samples the loop started from the zero accumulators computes the
least sample. -/
theorem reduceLoop_min_pos (l : List Int) (hne : l ≠ []) (hl : ∀ x ∈ l, 0 < x) :
    (reduceLoop l).minLatency ∈ l ∧ ∀ x ∈ l, (reduceLoop l).minLatency ≤ x := by
  cases l with
  | nil => exact absurd rfl hne
  | cons x xs =>
    have hx : 0 < x := hl x (List.mem_cons_self _ _)
    have h0 : reduceStep ⟨0, 0, 0⟩ x = ⟨wrap64 (0 + x), if x > 0 then x else 0, x⟩ := by
      simp [reduceStep]
    have hpos : 0 < (reduceStep ⟨0, 0, 0⟩ x).minLatency := by rw [h0]; exact hx
    obtain ⟨h1, h2, h3⟩ := foldl_min_pos xs (reduceStep ⟨0, 0, 0⟩ x) hpos
      (fun y hy => hl y (List.mem_cons_of_mem _ hy))
    have hmin : (reduceStep ⟨0, 0, 0⟩ x).minLatency = x := by rw [h0]
    rw [hmin] at h1 h3
    show (xs.foldl reduceStep (reduceStep ⟨0, 0, 0⟩ x)).minLatency ∈ x :: xs ∧ _
    refine ⟨?_, ?_⟩
    · rcases h3 with h3 | h3
      · rw [h3]; exact List.mem_cons_self _ _
      · exact List.mem_cons_of_mem _ h3
    · intro y hy
      rcases List.mem_cons.mp hy with rfl | hy
      · exact h1
      · exact h2 y hy

/-- Over non-negative samples the loop started from the zero accumulators computes
the greatest sample. -/
theorem reduceLoop_max_nonneg (l : List Int) (hne : l ≠ []) (hl : ∀ x ∈ l, 0 ≤ x) :
    (reduceLoop l).maxLatency ∈ l ∧ ∀ x ∈ l, x ≤ (reduceLoop l).maxLatency := by
  obtain ⟨_, h2, h3⟩ := foldl_max l ⟨0, 0, 0⟩
  refine ⟨?_, h2⟩
  rcases h3 with h3 | h3
  · -- the maximum stayed 0: every sample is 0, so 0 is a sample
    cases l with
    | nil => exact absurd rfl hne
    | cons x xs =>
      have hx0 := hl x (List.mem_cons_self _ _)
      have hx1 := h2 x (List.mem_cons_self _ _)
      have h3a : (reduceLoop (x :: xs)).maxLatency = 0 := h3
      have h3b : (List.foldl reduceStep ⟨0, 0, 0⟩ (x :: xs)).maxLatency = 0 := h3
      rw [h3b] at hx1
      have : x = 0 := by omega
      rw [h3a, this]
      exact List.mem_cons_self _ _
  · exact h3

/-- Truncated division by a positive divisor keeps a value in the `int64` range. -/
theorem inInt64_tdiv {a b : Int} (ha : InInt64 a) (hb : 0 < b) : InInt64 (Int.tdiv a b) := by
  unfold InInt64 at *
  rcases Int.le_total 0 a with h | h
  · have h1 : 0 ≤ Int.tdiv a b := Int.tdiv_nonneg h (Int.le_of_lt hb)
    have h2 : Int.tdiv a b ≤ a := by
      rw [Int.tdiv_eq_ediv h (Int.le_of_lt hb)]
      exact Int.ediv_le_self b h
    omega
  · have hna : 0 ≤ -a := by omega
    have h1 : 0 ≤ Int.tdiv (-a) b := Int.tdiv_nonneg hna (Int.le_of_lt hb)
    have h2 : Int.tdiv (-a) b ≤ -a := by
      rw [Int.tdiv_eq_ediv hna (Int.le_of_lt hb)]
      exact Int.ediv_le_self b hna
    rw [Int.neg_tdiv] at h1 h2
    omega

/-- On a non-empty slice `summarize` returns a result and its fields are those of the
loop, the average being the wrapped total divided by the length. -/
theorem summarize_of_ne_nil (test : TestConfig) (l : List Int) (hne : l ≠ []) :
    summarize test l = .ok
      { Name := test.Name
        Method := test.Method
        Requests := (l.length : Int)
        AvgLatency := Int.tdiv (wrap64 l.sum) (l.length : Int)
        MaxLatency := (reduceLoop l).maxLatency
        MinLatency := (reduceLoop l).minLatency } := by
  have hlen : 0 < l.length := List.length_pos.mpr hne
  have hlen0 : ((l.length : Int) = 0) = False := by
    simp only [eq_iff_iff, iff_false]; omega
  have hr : InInt64 (Int.tdiv (wrap64 l.sum) (l.length : Int)) :=
    inInt64_tdiv (inInt64_wrap64 _) (by omega)
  unfold summarize goDiv
  simp only [hlen0, if_false, reduceLoop_total, wrap64_of_inInt64 hr]

theorem foldl_min_replicate_zero (n : Nat) (acc : Acc) (h : acc.minLatency = 0) :
    ((List.replicate n (0 : Int)).foldl reduceStep acc).minLatency = 0 := by
  induction n generalizing acc with
  | zero => simpa using h
  | succ k ih =>
    rw [List.replicate_succ, List.foldl_cons]
    apply ih
    simp [reduceStep, h]

/-! ## The latency reduction: claims -/

/-- C1 (code defect): on the empty latency slice the division of line 154 has a zero
divisor, so the reduction panics with a division by zero instead of producing a
summary of zeros; a count-mode run with `Requests = 0` ends in that panic and sends
no result. -/
theorem summarize_nil_divides_by_zero (test : TestConfig) :
    summarize test [] = .error .divideByZero ∧
    ∃ s, run (countTest 0 1) (start (countTest 0 1)) [.exitLoop, .report] = some s ∧
      s.latencies = [] ∧ s.crashed = some .divideByZero ∧ s.result = none :=
  ⟨rfl, _, rfl, rfl, rfl, rfl⟩

/-- C6 (code defect): line 149 takes `minLatency == 0` for "no sample yet", so a sample
equal to 0 is overwritten by the sample that follows it.  For the non-negative samples
0, 5 the reduction reports `MinLatency = 5`, which is not the smallest sample, while for
the same samples in the order 5, 0 it reports 0; `MaxLatency` is 5 in both orders. -/
theorem minLatency_zero_sample_overwritten :
    summarize (countTest 2 1) [0, 5] = .ok
      { Name := "t1", Method := "GET", Requests := 2, AvgLatency := 2, MaxLatency := 5,
        MinLatency := 5 } ∧
    summarize (countTest 2 1) [5, 0] = .ok
      { Name := "t1", Method := "GET", Requests := 2, AvgLatency := 2, MaxLatency := 5,
        MinLatency := 0 } ∧
    (0 : Int) ∈ [0, 5] ∧ ¬ ((5 : Int) ≤ 0) :=
  ⟨rfl, rfl, by simp, by decide⟩

/-- The reported minimum is not the least sample on every non-empty collection of
non-negative samples. -/
theorem minLatency_not_least_on_nonneg :
    ¬ (∀ (test : TestConfig) (l : List Int), l ≠ [] → (∀ x ∈ l, 0 ≤ x) →
        ∃ r, summarize test l = .ok r ∧ r.MinLatency ∈ l ∧ ∀ x ∈ l, r.MinLatency ≤ x) := by
  intro h
  obtain ⟨r, hr, _, hle⟩ := h (countTest 2 1) [0, 5] (by simp) (by decide)
  have hs : summarize (countTest 2 1) [0, 5] =
      .ok ⟨"t1", "GET", 2, 2, 5, 5⟩ := rfl
  rw [hs] at hr
  injection hr with hr
  subst hr
  have := hle 0 (by simp)
  simp at this

/-- Where no sample is 0 the sentinel of line 149 does no harm: for every non-empty
collection of strictly positive samples the reported minimum is a member of the
collection and is at most every sample. -/
theorem minLatency_least_of_pos (test : TestConfig) (l : List Int) (hne : l ≠ [])
    (hpos : ∀ x ∈ l, 0 < x) :
    ∃ r, summarize test l = .ok r ∧ r.MinLatency ∈ l ∧ ∀ x ∈ l, r.MinLatency ≤ x :=
  ⟨_, summarize_of_ne_nil test l hne, reduceLoop_min_pos l hne hpos⟩

/-- C7: for every non-empty collection of non-negative latency samples the reduction of
`runTest` produces a summary whose `MaxLatency` is a member of the collection and is at
least every sample. -/
theorem maxLatency_greatest (test : TestConfig) (l : List Int) (hne : l ≠ [])
    (hnonneg : ∀ x ∈ l, 0 ≤ x) :
    ∃ r, summarize test l = .ok r ∧ r.MaxLatency ∈ l ∧ ∀ x ∈ l, x ≤ r.MaxLatency :=
  ⟨_, summarize_of_ne_nil test l hne, reduceLoop_max_nonneg l hne hnonneg⟩

theorem maxLatency_greatest_witness :
    ∃ r, summarize (countTest 3 2) [7, 0, 9] = .ok r ∧ r.MaxLatency ∈ [7, 0, 9] ∧
      ∀ x ∈ [7, 0, 9], x ≤ r.MaxLatency :=
  maxLatency_greatest (countTest 3 2) [7, 0, 9] (by simp) (by decide)

/-- C8 (counterexample): two samples of 2^62 ns each are `int64` values, their sum
2^63 is not; the total of line 145 wraps to -2^63 and the reported average is -2^62,
not the sum divided by the number of samples. -/
theorem avgLatency_overflow_counterexample :
    ¬ (∀ (test : TestConfig) (l : List Int), l ≠ [] → (∀ x ∈ l, InInt64 x) →
        ∃ r, summarize test l = .ok r ∧
          r.AvgLatency = Int.tdiv l.sum (l.length : Int) ∧ r.Requests = (l.length : Int)) := by
  intro h
  obtain ⟨r, hr, havg, _⟩ :=
    h (countTest 2 1) [4611686018427387904, 4611686018427387904] (by simp) (by decide)
  have hs : summarize (countTest 2 1) [4611686018427387904, 4611686018427387904] =
      .ok ⟨"t1", "GET", 2, -4611686018427387904, 4611686018427387904,
        4611686018427387904⟩ := rfl
  rw [hs] at hr
  injection hr with hr
  subst hr
  revert havg
  decide

/-- C8 (amended): for every non-empty collection of latency samples whose sum is an
`int64` value, the reduction of `runTest` produces a summary whose `AvgLatency` is the
sum of the samples divided by their number (division truncated toward zero), and whose
`Requests` is that number. -/
theorem avgLatency_sum_div_length (test : TestConfig) (l : List Int) (hne : l ≠ [])
    (hsum : InInt64 l.sum) :
    ∃ r, summarize test l = .ok r ∧
      r.AvgLatency = Int.tdiv l.sum (l.length : Int) ∧ r.Requests = (l.length : Int) := by
  refine ⟨_, summarize_of_ne_nil test l hne, ?_, rfl⟩
  show Int.tdiv (wrap64 l.sum) _ = _
  rw [wrap64_of_inInt64 hsum]

theorem avgLatency_sum_div_length_witness :
    ∃ r, summarize (countTest 3 2) [7, 3, 9] = .ok r ∧
      r.AvgLatency = Int.tdiv (List.sum [7, 3, 9]) (([7, 3, 9] : List Int).length : Int) ∧
      r.Requests = (([7, 3, 9] : List Int).length : Int) :=
  avgLatency_sum_div_length (countTest 3 2) [7, 3, 9] (by simp) (by decide)

/-- C9: for every latency `L >= 0` and every `n >= 1` with `n * L` an `int64` value, the
reduction of `n` samples all equal to `L` produces the summary with
`AvgLatency = MinLatency = MaxLatency = L` and `Requests = n`; the reduction is a function
of the test and the samples, so equal inputs give equal summaries. -/
theorem fixed_latency_summary (test : TestConfig) (L : Int) (n : Nat) (hL : 0 ≤ L)
    (hn : 1 ≤ n) (hsum : (n : Int) * L ≤ 9223372036854775807) :
    summarize test (List.replicate n L) = .ok
      { Name := test.Name, Method := test.Method, Requests := (n : Int),
        AvgLatency := L, MaxLatency := L, MinLatency := L } ∧
    ∀ l1 l2 : List Int, l1 = l2 → summarize test l1 = summarize test l2 := by
  refine ⟨?_, fun l1 l2 h => by rw [h]⟩
  have hne : List.replicate n L ≠ [] := by
    intro h
    have := congrArg List.length h
    simp at this
    omega
  have hs : (List.replicate n L).sum = (n : Int) * L := by
    rw [List.sum_replicate]; simp
  have hn0 : (n : Int) ≠ 0 := by omega
  have hin : InInt64 ((n : Int) * L) := by
    unfold InInt64
    have : 0 ≤ (n : Int) * L := Int.mul_nonneg (by omega) hL
    omega
  have hmax : (reduceLoop (List.replicate n L)).maxLatency = L :=
    List.eq_of_mem_replicate
      (reduceLoop_max_nonneg _ hne (fun x hx => by rw [List.eq_of_mem_replicate hx]; exact hL)).1
  have hmin : (reduceLoop (List.replicate n L)).minLatency = L := by
    rcases lt_or_eq_of_le hL with hpos | h0
    · exact List.eq_of_mem_replicate
        (reduceLoop_min_pos _ hne
          (fun x hx => by rw [List.eq_of_mem_replicate hx]; exact hpos)).1
    · subst h0
      exact foldl_min_replicate_zero n ⟨0, 0, 0⟩ rfl
  rw [summarize_of_ne_nil test _ hne, hs, wrap64_of_inInt64 hin, hmax, hmin,
    List.length_replicate, Int.mul_tdiv_cancel_left L hn0]

theorem fixed_latency_summary_witness :
    summarize (countTest 10 2) (List.replicate 10 10000000) = .ok
      { Name := (countTest 10 2).Name, Method := (countTest 10 2).Method,
        Requests := ((10 : Nat) : Int),
        AvgLatency := 10000000, MaxLatency := 10000000, MinLatency := 10000000 } ∧
    ∀ l1 l2 : List Int, l1 = l2 →
      summarize (countTest 10 2) l1 = summarize (countTest 10 2) l2 :=
  fixed_latency_summary (countTest 10 2) 10000000 10 (by decide) (by decide) (by decide)

/-! ## Lemmas on the dispatch loops -/

theorem run_nil (test : TestConfig) (s : RunState) : run test s [] = some s := rfl

theorem run_cons (test : TestConfig) (s : RunState) (e : Event) (es : List Event) :
    run test s (e :: es) = (step test s e).bind (fun s1 => run test s1 es) := by
  simp only [run]
  cases step test s e <;> rfl

/-- A property kept by every step holds along every schedule. -/
theorem run_invariant (test : TestConfig) (P : RunState → Prop)
    (hstep : ∀ s s1 e, P s → step test s e = some s1 → P s1) :
    ∀ (evs : List Event) (s s1 : RunState), P s → run test s evs = some s1 → P s1 := by
  intro evs
  induction evs with
  | nil =>
    intro s s1 hP h
    rw [run_nil] at h
    injection h with h
    rw [← h]; exact hP
  | cons e es ih =>
    intro s s1 hP h
    rw [run_cons] at h
    cases hs : step test s e with
    | none => rw [hs] at h; exact absurd h (by simp)
    | some s2 =>
      rw [hs] at h
      exact ih s2 s1 (hstep s s2 e hP hs) h

/-- Nothing happens after a panic. -/
theorem step_crashed (test : TestConfig) (s : RunState) (e : Event)
    (h : s.crashed.isSome = true) : step test s e = none := by
  unfold step
  simp [h]

theorem step_countInv (test : TestConfig) (hd : test.Duration ≤ 0) (s s1 : RunState)
    (e : Event) (hinv : CountInv test s) (h : step test s e = some s1) :
    CountInv test s1 := by
  obtain ⟨h1, h2, h3⟩ := hinv
  unfold step at h
  split at h
  · exact absurd h (by simp)
  · cases e <;> simp only at h
    all_goals (repeat' split at h)
    all_goals first
      | (cases h; done)
      | (injection h with h
         subst h
         unfold CountInv
         simp_all
         try omega)

theorem step_loopInv (test : TestConfig) (s s1 : RunState)
    (e : Event) (hinv : LoopInv test s) (h : step test s e = some s1) :
    LoopInv test s1 := by
  obtain ⟨h1, h2, h3, h4, h5⟩ := hinv
  unfold step at h
  split at h
  · exact absurd h (by simp)
  · cases e <;> simp only at h
    all_goals (repeat' split at h)
    all_goals first
      | (cases h; done)
      | (injection h with h
         subst h
         unfold LoopInv
         simp_all
         try omega)

theorem step_durInv (test : TestConfig) (s s1 : RunState)
    (e : Event) (hinv : DurInv s) (h : step test s e = some s1) :
    DurInv s1 := by
  obtain ⟨h1, h2⟩ := hinv
  unfold step at h
  split at h
  · exact absurd h (by simp)
  · cases e <;> simp only at h
    all_goals (repeat' split at h)
    all_goals first
      | (cases h; done)
      | (injection h with h
         subst h
         unfold DurInv
         simp_all)

theorem start_countInv (test : TestConfig) (hd : test.Duration ≤ 0)
    (hc : 0 ≤ test.Concurrency) : CountInv test (start test) := by
  have hd1 : ¬ test.Duration > 0 := by omega
  unfold CountInv start
  simp [hd1, hc]

theorem start_loopInv (test : TestConfig) (hd : test.Duration ≤ 0) :
    LoopInv test (start test) := by
  have hd1 : ¬ test.Duration > 0 := by omega
  unfold LoopInv start
  simp [hd1]

theorem start_durInv (test : TestConfig) (hd : 0 < test.Duration) :
    DurInv (start test) := by
  unfold DurInv start
  simp [hd]

/-- Count mode: the number of launches never exceeds the request count. -/
theorem count_launched_le (test : TestConfig) (hd : test.Duration ≤ 0)
    (hn : 0 ≤ test.Requests) (evs : List Event) (s : RunState)
    (hr : run test (start test) evs = some s) : (s.launched : Int) ≤ test.Requests := by
  have h := run_invariant test (LoopInv test) (step_loopInv test) evs _ _
    (start_loopInv test hd) hr
  obtain ⟨h1, _, _, h4, _⟩ := h
  omega

/-- Count mode: when control has left the dispatch loop, exactly `Requests` attempts
have been launched. -/
theorem count_loop_exit_launched (test : TestConfig) (hd : test.Duration ≤ 0)
    (hn : 0 ≤ test.Requests) (evs : List Event) (s : RunState)
    (hr : run test (start test) evs = some s)
    (hpc : s.pc = .waiting ∨ s.pc = .finished) : (s.launched : Int) = test.Requests := by
  have h := run_invariant test (LoopInv test) (step_loopInv test) evs _ _
    (start_loopInv test hd) hr
  obtain ⟨h1, _, _, h4, h5⟩ := h
  have := h5 hpc
  omega

/-- A call of `sendRequest` that comes back returns a slice. -/
theorem sendRequest_ok_of_returns (test : TestConfig) (a : Attempt) (latencies : List Int)
    (h : a.Returns test) : ∃ l, sendRequest test a latencies = .ok l := by
  unfold sendRequest
  rcases h with h | h | h
  · exact ⟨_, by rw [if_pos h]⟩
  · by_cases hm : (test.Method = "POST" ∨ test.Method = "PUT") ∧ a.marshalErr = true
    · exact ⟨_, by rw [if_pos hm]⟩
    · exact ⟨_, by rw [if_neg hm, if_pos h]⟩
  · by_cases hm : (test.Method = "POST" ∨ test.Method = "PUT") ∧ a.marshalErr = true
    · exact ⟨_, by rw [if_pos hm]⟩
    · by_cases hn : a.newRequestErr = true
      · exact ⟨_, by rw [if_neg hm, if_pos hn]⟩
      · cases hr : a.resp with
        | none => exact absurd hr h
        | some r => exact ⟨_, by rw [if_neg hm, if_neg hn]⟩

/-- One iteration of the count-mode loop whose attempt comes back, run to its end. -/
theorem sequential_round (test : TestConfig) (hd : test.Duration ≤ 0)
    (hc : 1 ≤ test.Concurrency) (a : Attempt) (hret : a.Returns test) (s : RunState)
    (hidle : Idle s) (hi : s.i < test.Requests) (rest : List Event) :
    ∃ s1, run test s (.acquire :: .spawn :: .enter :: .finish a :: .release :: rest)
        = run test s1 rest ∧
      Idle s1 ∧ s1.i = s.i + 1 ∧ s1.launched = s.launched + 1 := by
  obtain ⟨l, hl⟩ := sendRequest_ok_of_returns test a s.latencies hret
  obtain ⟨h1, h2, h3, h4, h5, h6⟩ := hidle
  have hd1 : ¬ test.Duration > 0 := by omega
  have hc1 : (0 : Int) < test.Concurrency := by omega
  refine ⟨{ s with i := s.i + 1, wgRequests := s.wgRequests, launched := s.launched + 1,
                   latencies := l }, ?_, ⟨h1, h2, h3, h4, h5, h6⟩, rfl, rfl⟩
  cases s
  simp only at h1 h2 h3 h4 h5 h6 hi hl
  subst h1 h2 h3 h4 h5 h6
  simp [run, step, hi, hc1, hl, hd1]

theorem sequential_run (test : TestConfig) (hd : test.Duration ≤ 0)
    (hc : 1 ≤ test.Concurrency) (attempts : List Attempt)
    (hret : ∀ a ∈ attempts, a.Returns test) (s : RunState) (hidle : Idle s)
    (hi : s.i + (attempts.length : Int) = test.Requests) :
    ∃ s1, run test s (sequentialSchedule attempts) = some s1 ∧ s1.pc = .waiting ∧
      s1.crashed = none ∧ s1.launched = s.launched + attempts.length := by
  induction attempts generalizing s with
  | nil =>
    obtain ⟨h1, h2, _⟩ := hidle
    have hn : ¬ s.i < test.Requests := by simp at hi; omega
    refine ⟨{ s with pc := .waiting }, ?_, rfl, h1, rfl⟩
    simp [sequentialSchedule, run, step, h1, h2, hn]
  | cons a rest ih =>
    have hlen : ((a :: rest).length : Int) = (rest.length : Int) + 1 := by simp
    obtain ⟨s1, hrun, hidle1, hi1, hl1⟩ :=
      sequential_round test hd hc a (hret a (List.mem_cons_self _ _)) s hidle
        (by omega) (sequentialSchedule rest)
    obtain ⟨s2, hrun2, hpc, hcr, hl2⟩ :=
      ih (fun b hb => hret b (List.mem_cons_of_mem _ hb)) s1 hidle1 (by omega)
    refine ⟨s2, ?_, hpc, hcr, ?_⟩
    · show run test s (.acquire :: .spawn :: .enter :: .finish a :: .release ::
          sequentialSchedule rest) = some s2
      rw [hrun, hrun2]
    · rw [hl2, hl1, List.length_cons]; omega

/-- Count mode with `Concurrency >= 1`: when every attempt comes back from `sendRequest`,
with or without a sample, the schedule that runs them one after the other launches
exactly `Requests` attempts and reaches `wgRequests.Wait()`. -/
theorem count_mode_launches_all_when_attempts_return (test : TestConfig)
    (hd : test.Duration ≤ 0) (hc : 1 ≤ test.Concurrency) (attempts : List Attempt)
    (hlen : (attempts.length : Int) = test.Requests)
    (hret : ∀ a ∈ attempts, a.Returns test) :
    ∃ s, run test (start test) (sequentialSchedule attempts) = some s ∧
      s.pc = .waiting ∧ s.crashed = none ∧ (s.launched : Int) = test.Requests := by
  have hd1 : ¬ test.Duration > 0 := by omega
  have hc1 : ¬ test.Concurrency < 0 := by omega
  have hidle : Idle (start test) := by
    unfold Idle start
    simp [hd1, hc1]
  obtain ⟨s, hrun, hpc, hcr, hl⟩ :=
    sequential_run test hd hc attempts hret (start test) hidle
      (by show (0 : Int) + _ = _; omega)
  refine ⟨s, hrun, hpc, hcr, ?_⟩
  rw [hl]
  show ((0 + attempts.length : Nat) : Int) = _
  omega

/-- A property kept by every step of a schedule whose events all satisfy `Q` holds
along that schedule. -/
theorem run_invariant_on (test : TestConfig) (Q : Event → Prop) (P : RunState → Prop)
    (hstep : ∀ s s1 e, Q e → P s → step test s e = some s1 → P s1) :
    ∀ (evs : List Event) (s s1 : RunState), (∀ e ∈ evs, Q e) → P s →
      run test s evs = some s1 → P s1 := by
  intro evs
  induction evs with
  | nil =>
    intro s s1 _ hP h
    rw [run_nil] at h
    injection h with h
    rw [← h]; exact hP
  | cons e es ih =>
    intro s s1 hQ hP h
    rw [run_cons] at h
    cases hs : step test s e with
    | none => rw [hs] at h; exact absurd h (by simp)
    | some s2 =>
      rw [hs] at h
      exact ih s2 s1 (fun e1 he1 => hQ e1 (List.mem_cons_of_mem _ he1))
        (hstep s s2 e (hQ e (List.mem_cons_self _ _)) hP hs) h

/-- A call of `sendRequest` answered by a transport-level error panics at line 85. -/
theorem sendRequest_of_refused (test : TestConfig) (a : Attempt) (latencies : List Int)
    (h : a.Refused test) : sendRequest test a latencies = .error .nilDereference := by
  obtain ⟨hm, hn, _, hresp⟩ := h
  unfold sendRequest
  rw [if_neg hm, if_neg (by simp [hn])]
  simp only [hresp]

/-- Count mode with one slot: along every schedule in which the attempts that end are
answered by transport-level errors, at most one attempt is ever launched, whatever the
request count: the first attempt panics while it holds the only slot. -/
theorem single_slot_refused_launches_at_most_one (test : TestConfig)
    (hd : test.Duration ≤ 0) (hc : test.Concurrency = 1) (evs : List Event)
    (hq : AllRefused test evs) (s : RunState) (hr : run test (start test) evs = some s) :
    s.launched ≤ 1 := by
  have hd1 : ¬ test.Duration > 0 := by omega
  have hP := run_invariant_on test (fun e => ∀ a, e = .finish a → a.Refused test)
    (fun s => s.pc ≠ .durLoop ∧ s.returned = 0 ∧ s.launched ≤ 1 ∧
      (s.pc = .holding → s.chanLen = 1 ∧ s.launched = 0) ∧
      (s.launched = 1 → s.chanLen = 1))
    (fun s s1 e hQ hinv h => by
      obtain ⟨h1, h2, h3, h4, h5⟩ := hinv
      unfold step at h
      split at h
      · exact absurd h (by simp)
      · cases e with
        | finish a =>
          simp only at h
          rw [sendRequest_of_refused test a s.latencies (hQ a rfl)] at h
          split at h
          · injection h with h
            subst h
            exact ⟨h1, h2, h3, h4, h5⟩
          · exact absurd h (by simp)
        | _ =>
          simp only at h
          all_goals (repeat' split at h)
          all_goals first
            | (cases h; done)
            | (injection h with h
               subst h
               simp_all
               try omega))
    evs _ _ hq (by simp [start, hd1]) hr
  exact hP.2.2.1

/-! ## The request executor and the dispatch loops: claims -/

/-- C2 (code defect): when `client.Do` returns a transport-level error, and so a nil
response, `sendRequest` does leave the latency slice alone, but it does not return
normally: line 85 reads `resp.StatusCode` through the nil pointer and the call
panics. -/
theorem sendRequest_transport_error_panics (test : TestConfig) (a : Attempt)
    (latencies : List Int)
    (hm : ¬ ((test.Method = "POST" ∨ test.Method = "PUT") ∧ a.marshalErr = true))
    (hn : a.newRequestErr = false) (ht : a.TransportError) :
    sendRequest test a latencies = .error .nilDereference :=
  sendRequest_of_refused test a latencies ⟨hm, hn, ht⟩

theorem sendRequest_transport_error_panics_witness :
    sendRequest (countTest 1 1) (refusedAttempt 7) [] = .error .nilDereference :=
  sendRequest_transport_error_panics (countTest 1 1) (refusedAttempt 7) []
    (by decide) rfl (by decide)

/-- C3 (code defect): in a duration-mode test the `break` of line 113 only leaves the
`select` statement.  In every reachable state control is still inside the launch loop
and no result has been sent; and once the value of the timer has been received from
`done`, the next iteration of the loop launches one more attempt. -/
theorem duration_loop_never_exits (test : TestConfig) (hd : 0 < test.Duration)
    (evs : List Event) (s : RunState) (hr : run test (start test) evs = some s) :
    s.pc = .durLoop ∧ s.result = none ∧
    (s.crashed = none → s.timer = .spent →
      ∃ s1, step test s .selectIter = some s1 ∧ s1.launched = s.launched + 1 ∧
        s1.pc = .durLoop) := by
  obtain ⟨h1, h2⟩ := run_invariant test DurInv (step_durInv test) evs _ _
    (start_durInv test hd) hr
  refine ⟨h1, h2, ?_⟩
  intro hc ht
  refine ⟨{ s with wgRequests := s.wgRequests + 1
                   created := s.created + 1
                   launched := s.launched + 1 }, ?_, rfl, h1⟩
  unfold step
  simp [hc, h1, ht]

theorem duration_loop_never_exits_witness :
    ∃ s, run (durationTest 1) (start (durationTest 1)) [.selectIter, .tick, .selectIter]
        = some s ∧ s.launched = 1 ∧ s.crashed = none ∧ s.timer = .spent ∧
      (s.pc = .durLoop ∧ s.result = none ∧
        (s.crashed = none → s.timer = .spent →
          ∃ s1, step (durationTest 1) s .selectIter = some s1 ∧
            s1.launched = s.launched + 1 ∧ s1.pc = .durLoop)) :=
  ⟨_, rfl, rfl, rfl, rfl,
    duration_loop_never_exits (durationTest 1) (by decide)
      [.selectIter, .tick, .selectIter] _ rfl⟩

/-- C4 (code defect, the one of C2): with `Requests = 2` and `Concurrency = 1`, a first
attempt whose connection is refused panics inside `sendRequest` before its goroutine
gives the slot back; the process is gone with one attempt launched, not two. -/
theorem count_mode_refused_attempt_stops_launches :
    ∃ s, run (countTest 2 1) (start (countTest 2 1))
        [.acquire, .spawn, .enter, .finish (refusedAttempt 7)] = some s ∧
      s.launched = 1 ∧ s.crashed = some .nilDereference ∧
      ∀ e, step (countTest 2 1) s e = none :=
  ⟨_, rfl, rfl, rfl, fun e => step_crashed _ _ e rfl⟩

/-- C5 (counterexample): the count-mode test with `Requests = 1` and `Concurrency = 0`
is not rejected; `runTest` stands at the send of line 125 on a channel without buffer
and without receiver, and no step is possible any more. -/
theorem concurrency_zero_blocks_counterexample :
    ¬ (∀ test : TestConfig, test.Duration ≤ 0 → test.Concurrency = 0 →
        ¬ BlockedOnSlot test (start test)) := by
  intro h
  apply h (countTest 1 0) (by decide) rfl
  refine ⟨rfl, rfl, by decide, ?_⟩
  intro e
  cases e <;> rfl

/-- C5 (amended): for every count-mode test with `Concurrency = 0`, `runTest` does no
validation and enters the dispatch loop with the process alive, and in every reachable
state no `sendRequest` attempt has been launched or is in flight.  When `Requests >= 1`
the send of line 125 blocks from the start: no step of `runTest` or of its goroutines is
possible, and the start state is the only reachable one.  When `Requests <= 0` the loop
test fails at once and `runTest` goes on to `wgRequests.Wait()`. -/
theorem concurrency_zero_never_launches (test : TestConfig) (hd : test.Duration ≤ 0)
    (hc : test.Concurrency = 0) :
    (start test).pc = .countLoop ∧ (start test).crashed = none ∧
    (∀ evs s, run test (start test) evs = some s → s.launched = 0 ∧ s.running = 0) ∧
    (1 ≤ test.Requests →
      BlockedOnSlot test (start test) ∧
      ∀ evs s, run test (start test) evs = some s → s = start test) ∧
    (test.Requests ≤ 0 →
      ∃ s1, step test (start test) .exitLoop = some s1 ∧ s1.pc = .waiting) := by
  have hd1 : ¬ test.Duration > 0 := by omega
  refine ⟨by simp [start, hd1], by simp [start, hd1, hc], ?_, ?_, ?_⟩
  · intro evs s hr
    have hP := run_invariant test
      (fun s => CountInv test s ∧ s.launched = 0)
      (fun s s1 e hinv h => by
        refine ⟨step_countInv test hd s s1 e hinv.1 h, ?_⟩
        obtain ⟨⟨h1, h2, h3⟩, h4⟩ := hinv
        rw [hc] at h2
        unfold step at h
        split at h
        · exact absurd h (by simp)
        · cases e <;> simp only at h
          all_goals (repeat' split at h)
          all_goals first
            | (cases h; done)
            | (injection h with h
               subst h
               simp_all
               try omega))
      evs _ _ ⟨start_countInv test hd (by omega), by simp [start]⟩ hr
    obtain ⟨⟨h1, h2, _⟩, h4⟩ := hP
    rw [hc] at h2
    exact ⟨h4, by omega⟩
  · intro hn
    have hn1 : (0 : Int) < test.Requests := by omega
    have hstuck : ∀ e, step test (start test) e = none := by
      intro e
      cases e <;> simp [step, start, hd1, hc, hn1]
    refine ⟨⟨by simp [start, hd1], by simp [start, hd1, hc], by simpa [start] using hn1,
      hstuck⟩, ?_⟩
    intro evs s hr
    cases evs with
    | nil =>
      rw [run_nil] at hr
      injection hr with hr
      exact hr.symm
    | cons e es =>
      rw [run_cons, hstuck e] at hr
      exact absurd hr (by simp)
  · intro hn
    refine ⟨{ start test with pc := .waiting }, ?_, rfl⟩
    have hn1 : ¬ (0 : Int) < test.Requests := by omega
    simp [step, start, hd1, hc, hn1]

theorem concurrency_zero_never_launches_witness :
    (countTest 3 0).Concurrency = 0 ∧ 1 ≤ (countTest 3 0).Requests ∧
    (start (countTest 3 0)).pc = .countLoop ∧ (start (countTest 3 0)).crashed = none ∧
    (∀ evs s, run (countTest 3 0) (start (countTest 3 0)) evs = some s →
      s.launched = 0 ∧ s.running = 0) ∧
    BlockedOnSlot (countTest 3 0) (start (countTest 3 0)) ∧
    (∀ evs s, run (countTest 3 0) (start (countTest 3 0)) evs = some s →
      s = start (countTest 3 0)) :=
  ⟨rfl, by decide,
    (concurrency_zero_never_launches (countTest 3 0) (by decide) rfl).1,
    (concurrency_zero_never_launches (countTest 3 0) (by decide) rfl).2.1,
    (concurrency_zero_never_launches (countTest 3 0) (by decide) rfl).2.2.1,
    ((concurrency_zero_never_launches (countTest 3 0) (by decide) rfl).2.2.2.1
      (by decide)).1,
    ((concurrency_zero_never_launches (countTest 3 0) (by decide) rfl).2.2.2.1
      (by decide)).2⟩

/-- C10: for every count-mode test with `Concurrency = C >= 1`, in every state reachable
by the steps of the dispatch loop and of its goroutines, the number of `sendRequest`
calls in flight is at most `C`. -/
theorem in_flight_le_concurrency (test : TestConfig) (hd : test.Duration ≤ 0)
    (hc : 1 ≤ test.Concurrency) (evs : List Event) (s : RunState)
    (hr : run test (start test) evs = some s) :
    (s.running : Int) ≤ test.Concurrency := by
  obtain ⟨h1, h2, _⟩ := run_invariant test (CountInv test) (step_countInv test hd) evs _ _
    (start_countInv test hd (by omega)) hr
  omega

theorem in_flight_le_concurrency_witness :
    ∃ s, run (countTest 3 2) (start (countTest 3 2))
        [.acquire, .spawn, .acquire, .spawn, .enter, .enter, .finish (okAttempt 5),
          .release, .acquire, .spawn, .enter] = some s ∧
      s.running = 2 ∧ (s.running : Int) ≤ (countTest 3 2).Concurrency :=
  ⟨_, rfl, rfl,
    in_flight_le_concurrency (countTest 3 2) (by decide) (by decide)
      [.acquire, .spawn, .acquire, .spawn, .enter, .enter, .finish (okAttempt 5),
        .release, .acquire, .spawn, .enter] _ rfl⟩

end Gobench
